import Mathlib

/-!
Shallow embedding of the attestation-verification core of the repository:
`cmd/cosign/cli/verify/verify_attestation.go` (the envelope-aware
`reverseDSSEVerifier` adapter and `VerifyAttestationCommand.Exec`) and
`pkg/cosign/rego/rego.go` (`ValidateJSON`, the query-based policy
evaluator).

External collaborators (registry fetch, key loading, hardware token,
JSON/base64 codecs, the OPA query engine, the CUE evaluator) are modelled
as oracle functions supplied through an environment record, and the
control flow of the source is reproduced over them.  Fallible Go calls
are `Except String`-valued; the distinguished Go error values that the
source produces itself (`flag.ErrHelp`, `options.KeyParseError`,
`errors.Wrap`) are an inductive error type.  Side effects that the claims
talk about (network fetches, key loading, token acquisition and release,
base64 decoding, statement parsing, policy evaluation) are recorded as an
event trace returned alongside the result.
-/

/-! ## Byte streams and the envelope-aware verifier (`reverseDSSEVerifier`) -/

/-- Byte strings (Go `[]byte`), abstracted as lists of bytes. -/
abbrev Bytes := List Nat

/-- Opaque verification options (Go `signature.VerifyOption`), forwarded
unchanged by the adapter. -/
abbrev VerifyOption := String

/-- The wrapped raw verifier capability (Go `signature.Verifier`): its
`VerifySignature(signature, message, opts...)` consumes two optional
streams (`io.Reader` arguments may be `nil`, modelled by `Option`). -/
structure SigVerifier where
  VerifySignature : Option Bytes → Option Bytes → List VerifyOption → Except String Unit

/-- The adapter type from `verify_attestation.go`: wraps a
`signature.Verifier`. -/
structure reverseDSSEVerifier where
  Verifier : SigVerifier

/-- Source line 61-63: `func (w *reverseDSSEVerifier) VerifySignature(s io.Reader,
m io.Reader, opts ...signature.VerifyOption) error { return
w.Verifier.VerifySignature(m, nil, opts...) }` — the conventional
signature stream `s` is dropped, the message stream is passed in the
wrapped verifier's signature slot and `nil` in its message slot. -/
def reverseDSSEVerifier.VerifySignatureImpl (w : reverseDSSEVerifier)
    (_s m : Option Bytes) (opts : List VerifyOption) : Except String Unit :=
  w.Verifier.VerifySignature m none opts

/-! ## JSON values as decoded by `pkg/cosign/rego/rego.go`

`ValidateJSON` decodes the predicate bytes with `json.Decoder.UseNumber()`
set, so JSON numbers become `json.Number` (the exact literal) instead of
`float64`.  JSON texts are abstracted to their syntax trees; a number
literal is abstracted by the exact integer it denotes (the claims concern
integer literals).  The mutually inductive list types keep all recursion
structural. -/

mutual
/-- A well-formed JSON text (its syntax tree); integer literals carry
their exact value. -/
inductive JsonText where
  | null : JsonText
  | boolean (b : Bool) : JsonText
  | num (n : Int) : JsonText
  | str (s : String) : JsonText
  | arr (elems : JsonArr) : JsonText
  | obj (fields : JsonObj) : JsonText
inductive JsonArr where
  | nil : JsonArr
  | cons (hd : JsonText) (tl : JsonArr) : JsonArr
inductive JsonObj where
  | nil : JsonObj
  | cons (key : String) (val : JsonText) (tl : JsonObj) : JsonObj
end

mutual
/-- A generic Go value produced by `json.Decode` into `interface{}`:
`number` is a `json.Number` (exact literal, abstracted by its value),
`float` is a `float64` (whose integral value has been rounded to 53-bit
precision). -/
inductive GoVal where
  | null : GoVal
  | boolean (b : Bool) : GoVal
  | number (n : Int) : GoVal
  | float (f : Int) : GoVal
  | str (s : String) : GoVal
  | arr (elems : GoArr) : GoVal
  | obj (fields : GoObj) : GoVal
inductive GoArr where
  | nil : GoArr
  | cons (hd : GoVal) (tl : GoArr) : GoArr
inductive GoObj where
  | nil : GoObj
  | cons (key : String) (val : GoVal) (tl : GoObj) : GoObj
end

/-- Exponent of the IEEE-754 double ulp for a natural number `n`: the
largest `e` with `2 ^ (e + 53) < n` plus one (0 when `n` fits in 53
bits).  The fold covers every `n < 2 ^ 256`, far beyond any JSON
integer of interest here. -/
def f64ulpExp (n : Nat) : Nat :=
  (List.range 203).foldl (fun acc i => if 2 ^ (i + 53) < n then i + 1 else acc) 0

/-- Round a natural number to the nearest IEEE-754 double (ties to even),
expressed on integers: round to the nearest multiple of the ulp. -/
def f64roundNat (n : Nat) : Nat :=
  let e := f64ulpExp n
  if e = 0 then n
  else
    let u := 2 ^ e
    let q := n / u
    let r := n % u
    let q2 := if r * 2 > u || (r * 2 == u && q % 2 == 1) then q + 1 else q
    q2 * u

/-- Round an integer to the nearest IEEE-754 double. -/
def f64round (n : Int) : Int :=
  if n < 0 then -(f64roundNat n.natAbs : Int) else (f64roundNat n.natAbs : Int)

mutual
/-- Go's `json.Decode` into a generic `interface{}` value: with
`useNumber` set (as `rego.ValidateJSON` does via `dec.UseNumber()`),
number literals decode to `json.Number`, preserving the exact value;
without it they decode to `float64`, rounding to 53-bit precision. -/
def goJsonDecode (useNumber : Bool) : JsonText → GoVal
  | .null => .null
  | .boolean b => .boolean b
  | .num n => if useNumber then .number n else .float (f64round n)
  | .str s => .str s
  | .arr l => .arr (goJsonDecodeArr useNumber l)
  | .obj l => .obj (goJsonDecodeObj useNumber l)
def goJsonDecodeArr (useNumber : Bool) : JsonArr → GoArr
  | .nil => .nil
  | .cons v l => .cons (goJsonDecode useNumber v) (goJsonDecodeArr useNumber l)
def goJsonDecodeObj (useNumber : Bool) : JsonObj → GoObj
  | .nil => .nil
  | .cons k v l => .cons k (goJsonDecode useNumber v) (goJsonDecodeObj useNumber l)
end

mutual
/-- Read a decoded generic value back as the JSON text it denotes
(`json.Number` and `float64` both denote their numeric value).  Used to
state losslessness of the decode step. -/
def jsonTextOfVal : GoVal → JsonText
  | .null => .null
  | .boolean b => .boolean b
  | .number n => .num n
  | .float f => .num f
  | .str s => .str s
  | .arr l => .arr (jsonTextOfValArr l)
  | .obj l => .obj (jsonTextOfValObj l)
def jsonTextOfValArr : GoArr → JsonArr
  | .nil => .nil
  | .cons v l => .cons (jsonTextOfVal v) (jsonTextOfValArr l)
def jsonTextOfValObj : GoObj → JsonObj
  | .nil => .nil
  | .cons k v l => .cons k (jsonTextOfVal v) (jsonTextOfValObj l)
end

/-! ## `pkg/cosign/rego/rego.go`: the query-based policy evaluator -/

/-- The raw bytes handed to `ValidateJSON`, abstracted to whether they
are a well-formed JSON text (malformed bytes make `dec.Decode` fail with
the decoder's error message). -/
inductive JsonBody where
  | wellFormed (t : JsonText) : JsonBody
  | malformed (msg : String) : JsonBody

/-- One result of an OPA query evaluation (`rego.Result`): variable
bindings and expression values. -/
structure RegoResult where
  Bindings : List (String × GoVal)
  Expressions : List GoVal

/-- An OPA result set (`rego.ResultSet`). -/
abbrev ResultSet := List RegoResult

/-- Modelled from the spec: the external OPA engine's
`ResultSet.Allowed()` (the "result set explicitly marks the input
allowed" check): true exactly when the set has a single result with no
bindings and a single boolean expression value that is `true`; an empty
result set or any other shape is not allowed. -/
def ResultSet.Allowed : ResultSet → Bool
  | [r] =>
    match r.Bindings, r.Expressions with
    | [], [GoVal.boolean b] => b
    | _, _ => false
  | _ => false

/-- The external OPA engine as seen by `ValidateJSON`:
`rego.New(rego.Query("data.signature.allow"), rego.Load(entrypoints,
nil)).PrepareForEval(ctx)` either fails (source read/compile failure) or
yields a prepared query, itself a function from the decoded input to an
evaluation outcome (`query.Eval`). -/
structure RegoEnv where
  PrepareForEval : List String → Except String (GoVal → Except String ResultSet)

/-- The decode step of `ValidateJSON` (source lines 23-28): a
`json.Decoder` over the body with `UseNumber()` set. -/
def decodeBody : JsonBody → Except String GoVal
  | .malformed e => .error e
  | .wellFormed t => .ok (goJsonDecode true t)

/-- `rego.ValidateJSON(jsonBody, entrypoints)`: prepare the fixed
`data.signature.allow` query over the entrypoints, decode the body with
`UseNumber`, evaluate, and return nil only when the result set is
allowed; otherwise the fixed error `rego validation failed`.  Any
prepare / decode / eval failure propagates its error unchanged. -/
def ValidateJSON (env : RegoEnv) (jsonBody : JsonBody) (entrypoints : List String) :
    Except String Unit :=
  match env.PrepareForEval entrypoints with
  | .error e => .error e
  | .ok query =>
    match decodeBody jsonBody with
    | .error e => .error e
    | .ok input =>
      match query input with
      | .error e => .error e
      | .ok rs => if rs.Allowed then .ok () else .error "rego validation failed"

/-- The prepared-query outcome of a run, disregarding the decode and the
allow check: `none` when preparation failed (a policy-source failure),
`some rs` when the query evaluated to result set `rs`. -/
def regoQueryResult (env : RegoEnv) (entrypoints : List String) (input : GoVal) :
    Option ResultSet :=
  match env.PrepareForEval entrypoints with
  | .error _ => none
  | .ok query =>
    match query input with
    | .error _ => none
    | .ok rs => some rs

/-! ## `cmd/cosign/cli/verify/verify_attestation.go`: data model -/

/-- The command configuration (`VerifyAttestationCommand` struct; the
embedded `options.RegistryOptions` is consumed only through the
`ClientOpts` oracle). -/
structure VerifyAttestationCommand where
  CheckClaims : Bool
  KeyRef : String
  Sk : Bool
  Slot : String
  Output : String
  FulcioURL : String
  RekorURL : String
  PredicateType : String
  Policies : List String

/-- Modelled from the spec: `options.PredicateCustom` (package
`cmd/cosign/cli/options` is not under src/) — the `custom` selector of
the four recognized predicate-type tags. -/
def PredicateCustom : String := "custom"

/-- Modelled from the spec: `options.PredicateLink`. -/
def PredicateLink : String := "link"

/-- Modelled from the spec: `options.PredicateSLSA` — the
`slsaprovenance` selector. -/
def PredicateSLSA : String := "slsaprovenance"

/-- Modelled from the spec: `options.PredicateSPDX`. -/
def PredicateSPDX : String := "spdx"

/-- Modelled from the spec: `options.PredicateTypeMap` (not under src/)
maps each of the four recognized predicate-type selectors to its
statement-type identifier; a Go map lookup at any other key yields the
zero value `""`. -/
def PredicateTypeMap (s : String) : String :=
  if s == PredicateCustom then "cosign.sigstore.dev/attestation/v1" else
  if s == PredicateLink then "https://in-toto.io/Link/v1" else
  if s == PredicateSLSA then "https://slsa.dev/provenance/v0.2" else
  if s == PredicateSPDX then "https://spdx.dev/Document" else ""

/-- Modelled from the spec: `options.OneOf(c.KeyRef, c.Sk)` (not under
src/) — whether an explicit key reference or the hardware-token flag is
supplied; the spec calls its negation "keyless mode (no explicit key or
hardware slot supplied)". -/
def OneOf (keyRef : String) (sk : Bool) : Bool :=
  keyRef != "" || sk

deriving instance DecidableEq for Except

/-- The opaque predicate content of a decoded statement: the code never
inspects it, it is only re-marshalled to JSON for the policy evaluator. -/
abbrev PredVal := String

/-- An in-toto statement as decoded by any of the four branches
(`in_toto.Statement`, `LinkStatement`, `ProvenanceStatement`,
`SPDXStatement` all share the header fields `_type`, `predicateType`,
`subject` and a branch-specific `Predicate`, opaque here). -/
structure Statement where
  SType : String
  StmtPredicateType : String
  Subject : List String
  Predicate : PredVal
deriving DecidableEq

/-- A verified attestation as returned by `cosign.VerifyAttestations`
(an `oci.Signature`): the one method `Exec` calls on it is `Payload()`. -/
structure VerifiedPayload where
  Payload : Except String Bytes
deriving DecidableEq

/-- The result of `json.Unmarshal(payload, &payloadData)` into
`map[string]interface{}`, projected to the two keys `Exec` reads:
`payloadType` and `payload`.  A field is `none` when the key is absent
or its value is not a JSON string (then it can neither equal the
requested type identifier nor satisfy the `.(string)` assertion). -/
structure PayloadData where
  payloadType : Option String
  payload : Option String
deriving DecidableEq

/-- The hardware token returned by `pivkey.GetKeyWithSlot`: `Exec` calls
`Verifier()` on it (outcome supplied by the oracle) and defers `Close()`. -/
structure PivToken where
  Verifier : Except String Unit
deriving DecidableEq

/-- Distinguished error values produced by `Exec` itself: `flag.ErrHelp`,
`&options.KeyParseError{}`, `errors.Wrap(err, msg)`, an error returned
unchanged, and a runtime panic from a failed `.(string)` type
assertion. -/
inductive GoErr where
  | errHelp : GoErr
  | keyParseError : GoErr
  | wrap (msg : String) (err : String) : GoErr
  | plain (err : String) : GoErr
  | panicErr (msg : String) : GoErr
deriving DecidableEq

/-- Observable effects of an `Exec` run, in order: registry client-option
construction, key loading, hardware-token acquisition / verifier
construction / release, reference parsing, the attestation fetch (the
network call `cosign.VerifyAttestations`), per-envelope payload reads
and JSON parses, base64 decoding, statement parsing (tagged with the
selector that chose the branch), policy evaluation (with the exact input
bytes handed to `cue.ValidateJSON`), and result printing. -/
inductive Ev where
  | clientOpts : Ev
  | loadPublicKey (keyRef : String) : Ev
  | pivAcquire (slot : String) : Ev
  | pivVerifier : Ev
  | pivClose : Ev
  | parseRef (img : String) : Ev
  | fetchAttestations (ref : String) : Ev
  | envPayload : Ev
  | jsonUnmarshal : Ev
  | base64Decode (s : String) : Ev
  | statementParse (kind : String) : Ev
  | policyEval (input : Bytes) (policies : List String) : Ev
  | printVerification (img : String) : Ev
deriving DecidableEq

/-- The external collaborators of `Exec`, as oracles.  Each field models
one out-of-scope call; deterministic codecs (`json.Unmarshal`,
`base64.StdEncoding.DecodeString`, the four statement unmarshals,
`json.Marshal`) are deterministic functions of their input bytes. -/
structure Env where
  experimental : Bool
  clientOpts : Except String Unit
  publicKeyFromKeyRef : String → Except String Unit
  pivGetKey : String → Except String PivToken
  parseRef : String → Except String String
  verifyAttestations : String → Except String (List VerifiedPayload × Bool)
  jsonUnmarshalMap : Bytes → Except String PayloadData
  base64Decode : String → Except String Bytes
  unmarshalStatement : Bytes → Except String Statement
  unmarshalLinkStatement : Bytes → Except String Statement
  unmarshalProvenanceStatement : Bytes → Except String Statement
  unmarshalSPDXStatement : Bytes → Except String Statement
  jsonMarshal : PredVal → Bytes
  cueValidate : Bytes → List String → Except String Unit

/-! ## `Exec`: the orchestration pipeline -/

/-- One branch body of the `switch c.PredicateType` (source lines
146-185): unmarshal the decoded payload as the branch's statement type,
marshal only its `Predicate` field, and run `cue.ValidateJSON` on those
bytes; any error is returned unchanged, success falls through to the
next envelope. -/
def runBranch (env : Env) (kind : String) (unmarshal : Bytes → Except String Statement)
    (decodedPayload : Bytes) (policies : List String) :
    Except GoErr Unit × List Ev :=
  match unmarshal decodedPayload with
  | .error e => (.error (.plain e), [.statementParse kind])
  | .ok st =>
    let payload := env.jsonMarshal st.Predicate
    match env.cueValidate payload policies with
    | .error e => (.error (.plain e), [.statementParse kind, .policyEval payload policies])
    | .ok _ => (.ok (), [.statementParse kind, .policyEval payload policies])

/-- The `switch c.PredicateType` dispatch (source lines 146-185):
branch selection consults only the requested predicate type; the
`default` case is `continue`. -/
def dispatchDecoded (env : Env) (predicateType : String) (decodedPayload : Bytes)
    (policies : List String) : Except GoErr Unit × List Ev :=
  if predicateType == PredicateCustom then
    runBranch env PredicateCustom env.unmarshalStatement decodedPayload policies
  else if predicateType == PredicateLink then
    runBranch env PredicateLink env.unmarshalLinkStatement decodedPayload policies
  else if predicateType == PredicateSLSA then
    runBranch env PredicateSLSA env.unmarshalProvenanceStatement decodedPayload policies
  else if predicateType == PredicateSPDX then
    runBranch env PredicateSPDX env.unmarshalSPDXStatement decodedPayload policies
  else
    (.ok (), [])

/-- Which statement decoder the switch associates with a requested
predicate type (`none` for an unrecognized selector).  Spec-side
characterization of the dispatch, used only in theorem statements. -/
def decoderFor (env : Env) (predicateType : String) :
    Option (Bytes → Except String Statement) :=
  if predicateType == PredicateCustom then some env.unmarshalStatement
  else if predicateType == PredicateLink then some env.unmarshalLinkStatement
  else if predicateType == PredicateSLSA then some env.unmarshalProvenanceStatement
  else if predicateType == PredicateSPDX then some env.unmarshalSPDXStatement
  else none

/-- The body of `for _, vp := range verified` (source lines 126-185):
read the payload, JSON-parse it, compare `payloadType` against
`options.PredicateTypeMap[c.PredicateType]` (skip on mismatch), base64
decode the `payload` field (the `.(string)` assertion panics when the
field is absent or not a string), then dispatch on the requested
predicate type.  `.ok ()` means fall through to the next envelope. -/
def processEnvelope (env : Env) (c : VerifyAttestationCommand) (vp : VerifiedPayload) :
    Except GoErr Unit × List Ev :=
  match vp.Payload with
  | .error e => (.error (.plain e), [.envPayload])
  | .ok payload =>
    match env.jsonUnmarshalMap payload with
    | .error e => (.error (.plain e), [.envPayload, .jsonUnmarshal])
    | .ok pd =>
      if pd.payloadType ≠ some (PredicateTypeMap c.PredicateType) then
        (.ok (), [.envPayload, .jsonUnmarshal])
      else
        match pd.payload with
        | none =>
          (.error (.panicErr "interface conversion"), [.envPayload, .jsonUnmarshal])
        | some b64 =>
          match env.base64Decode b64 with
          | .error e => (.error (.plain e), [.envPayload, .jsonUnmarshal, .base64Decode b64])
          | .ok decoded =>
            let r := dispatchDecoded env c.PredicateType decoded c.Policies
            (r.1, [.envPayload, .jsonUnmarshal, .base64Decode b64] ++ r.2)

/-- The envelope loop: an error from any envelope returns immediately,
otherwise processing continues with the next envelope. -/
def processEnvelopes (env : Env) (c : VerifyAttestationCommand) :
    List VerifiedPayload → Except GoErr Unit × List Ev
  | [] => (.ok (), [])
  | vp :: rest =>
    match processEnvelope env c vp with
    | (.error e, evs) => (.error e, evs)
    | (.ok _, evs) =>
      let r := processEnvelopes env c rest
      (r.1, evs ++ r.2)

/-- One iteration of `for _, imageRef := range images` (source lines
115-192): parse the reference, fetch-and-verify the attestations
(`cosign.VerifyAttestations`), run the envelope loop, then print the
verification results.  Every error is returned unchanged, aborting the
whole run. -/
def processImage (env : Env) (c : VerifyAttestationCommand) (img : String) :
    Except GoErr Unit × List Ev :=
  match env.parseRef img with
  | .error e => (.error (.plain e), [.parseRef img])
  | .ok ref =>
    match env.verifyAttestations ref with
    | .error e => (.error (.plain e), [.parseRef img, .fetchAttestations ref])
    | .ok (verified, _bundleVerified) =>
      match processEnvelopes env c verified with
      | (.error e, evs) => (.error e, [.parseRef img, .fetchAttestations ref] ++ evs)
      | (.ok _, evs) =>
        (.ok (), [.parseRef img, .fetchAttestations ref] ++ evs ++ [.printVerification img])

/-- The image loop: strictly sequential, any error aborts the run. -/
def processImages (env : Env) (c : VerifyAttestationCommand) :
    List String → Except GoErr Unit × List Ev
  | [] => (.ok (), [])
  | img :: rest =>
    match processImage env c img with
    | (.error e, evs) => (.error e, evs)
    | (.ok _, evs) =>
      let r := processImages env c rest
      (r.1, evs ++ r.2)

/-- `VerifyAttestationCommand.Exec(ctx, images)` (source lines 66-195):
empty image list returns `flag.ErrHelp`; keyless mode without the
experimental flag returns `&options.KeyParseError{}` before anything
else runs; then client options are built, the key material is loaded
(explicit key reference, else hardware token with `defer sk.Close()`,
else nothing in keyless mode), the verifier is wrapped in
`reverseDSSEVerifier`, and the image loop runs.  The deferred token
release fires on every return after a successful acquisition, which the
embedding reproduces by appending the `pivClose` event to the trace of
whatever the rest of the function returns. -/
def Exec (env : Env) (c : VerifyAttestationCommand) (images : List String) :
    Except GoErr Unit × List Ev :=
  if images = [] then (.error .errHelp, [])
  else if !OneOf c.KeyRef c.Sk && !env.experimental then (.error .keyParseError, [])
  else
    match env.clientOpts with
    | .error e => (.error (.wrap "constructing client options" e), [.clientOpts])
    | .ok _ =>
      if c.KeyRef ≠ "" then
        match env.publicKeyFromKeyRef c.KeyRef with
        | .error e =>
          (.error (.wrap "loading public key" e), [.clientOpts, .loadPublicKey c.KeyRef])
        | .ok _ =>
          let r := processImages env c images
          (r.1, [.clientOpts, .loadPublicKey c.KeyRef] ++ r.2)
      else if c.Sk then
        match env.pivGetKey c.Slot with
        | .error e =>
          (.error (.wrap "opening piv token" e), [.clientOpts, .pivAcquire c.Slot])
        | .ok tok =>
          match tok.Verifier with
          | .error e =>
            (.error (.wrap "initializing piv token verifier" e),
             [.clientOpts, .pivAcquire c.Slot, .pivVerifier, .pivClose])
          | .ok _ =>
            let r := processImages env c images
            (r.1, [.clientOpts, .pivAcquire c.Slot, .pivVerifier] ++ r.2 ++ [.pivClose])
      else
        let r := processImages env c images
        (r.1, [.clientOpts] ++ r.2)

/-! ## Concrete environments used by counterexamples and witnesses -/

/-- A rego environment whose policy-source preparation fails, and whose
failure message happens to coincide with the denial message the
evaluator uses. -/
def regoEnvSourceFailure : RegoEnv :=
  { PrepareForEval := fun _ => .error "rego validation failed" }

/-- A rego environment whose query prepares fine and evaluates every
input to the empty result set (a policy denial). -/
def regoEnvDenied : RegoEnv :=
  { PrepareForEval := fun _ => .ok (fun _ => .ok []) }

/-! ## Claim theorems: the envelope-aware verifier and the rego evaluator -/

/-- C1: for every wrapped verifier, message stream and options list, the
envelope-aware `reverseDSSEVerifier.VerifySignature` returns the same
outcome for any two values of the signature-stream argument — the result
never depends on the ignored signature stream. -/
theorem c1_reverse_verifier_ignores_signature_stream
    (w : reverseDSSEVerifier) (s1 s2 m : Option Bytes) (opts : List VerifyOption) :
    w.VerifySignatureImpl s1 m opts = w.VerifySignatureImpl s2 m opts := rfl

/-- C2: `rego.ValidateJSON` returns nil exactly when preparation, decode
and evaluation all succeed and the resulting result set explicitly marks
the input allowed; every run whose evaluation yields an empty result set
or any result set not marked allowed — and every run that fails
earlier — produces a non-nil error, never a silent pass. -/
theorem c2_rego_allows_iff_result_set_allowed
    (env : RegoEnv) (body : JsonBody) (entrypoints : List String) :
    ValidateJSON env body entrypoints = .ok () ↔
      ∃ query input rs,
        env.PrepareForEval entrypoints = .ok query ∧
        decodeBody body = .ok input ∧
        query input = .ok rs ∧
        rs.Allowed = true := by
  constructor
  · intro h
    unfold ValidateJSON at h
    split at h
    · cases h
    · split at h
      · cases h
      · split at h
        · cases h
        · split at h
          · exact ⟨_, _, _, by assumption, by assumption, by assumption, by assumption⟩
          · cases h
  · rintro ⟨query, input, rs, h1, h2, h3, h4⟩
    simp [ValidateJSON, h1, h2, h3, h4]

/-- C4 counterexample: a policy-source failure and a policy denial can
produce the very same error value, so the evaluator's result does not
carry distinguishable error kinds.  The first run's preparation fails
(no result set is ever produced); the second run's query evaluates to
the empty result set (a denial); the two `ValidateJSON` outcomes are
identical. -/
theorem c4_indistinguishable_error_counterexample :
    regoQueryResult regoEnvSourceFailure ["policy.rego"] GoVal.null = none ∧
    regoQueryResult regoEnvDenied ["policy.rego"] GoVal.null = some [] ∧
    ValidateJSON regoEnvSourceFailure (.wellFormed .null) ["policy.rego"] =
      ValidateJSON regoEnvDenied (.wellFormed .null) ["policy.rego"] :=
  ⟨rfl, rfl, rfl⟩

/-- C4 (amended): a policy-source (prepare) failure propagates its
underlying error value unchanged, while a policy denial yields the fixed
error `rego validation failed`; both are plain error values with no
structural tag, so they are distinguishable only when the source error
message happens to differ from the fixed denial message. -/
theorem c4_source_error_and_denial_as_plain_errors
    (env : RegoEnv) (body : JsonBody) (entrypoints : List String) :
    (∀ e, env.PrepareForEval entrypoints = .error e →
      ValidateJSON env body entrypoints = .error e) ∧
    (∀ query input rs,
      env.PrepareForEval entrypoints = .ok query →
      decodeBody body = .ok input →
      query input = .ok rs →
      rs.Allowed = false →
      ValidateJSON env body entrypoints = .error "rego validation failed") := by
  constructor
  · intro e he
    unfold ValidateJSON
    rw [he]
  · intro query input rs hq hi hrs hal
    simp [ValidateJSON, hq, hi, hrs, hal]

/-- Witness for the amended C4 theorem at concrete runs: a prepare
failure whose message is `rego validation failed`, and a denial run,
both produce that same error. -/
theorem c4_source_error_and_denial_as_plain_errors_witness :
    ValidateJSON regoEnvSourceFailure (.wellFormed .null) ["policy.rego"] =
      .error "rego validation failed" ∧
    ValidateJSON regoEnvDenied (.wellFormed .null) ["policy.rego"] =
      .error "rego validation failed" :=
  ⟨(c4_source_error_and_denial_as_plain_errors regoEnvSourceFailure
      (.wellFormed .null) ["policy.rego"]).1 "rego validation failed" rfl,
   (c4_source_error_and_denial_as_plain_errors regoEnvDenied
      (.wellFormed .null) ["policy.rego"]).2 (fun _ => .ok []) GoVal.null [] rfl rfl rfl rfl⟩

/-! ## C7: exactness of the `UseNumber` decode -/

mutual
/-- Decoding with `UseNumber` (as `ValidateJSON` does) is lossless: the
decoded generic value denotes exactly the JSON text it came from, so in
particular every integer literal is represented exactly. -/
theorem goJsonDecode_roundtrip : ∀ t : JsonText, jsonTextOfVal (goJsonDecode true t) = t
  | .null => rfl
  | .boolean _ => rfl
  | .num _ => rfl
  | .str _ => rfl
  | .arr l => congrArg JsonText.arr (goJsonDecodeArr_roundtrip l)
  | .obj l => congrArg JsonText.obj (goJsonDecodeObj_roundtrip l)
/-- Array case of the `UseNumber` losslessness round trip. -/
theorem goJsonDecodeArr_roundtrip :
    ∀ l : JsonArr, jsonTextOfValArr (goJsonDecodeArr true l) = l
  | .nil => rfl
  | .cons v l =>
    congrArg₂ JsonArr.cons (goJsonDecode_roundtrip v) (goJsonDecodeArr_roundtrip l)
/-- Object case of the `UseNumber` losslessness round trip. -/
theorem goJsonDecodeObj_roundtrip :
    ∀ l : JsonObj, jsonTextOfValObj (goJsonDecodeObj true l) = l
  | .nil => rfl
  | .cons k v l =>
    congrArg₂ (JsonObj.cons k) (goJsonDecode_roundtrip v) (goJsonDecodeObj_roundtrip l)
end

/-- C7: the decode step of `rego.ValidateJSON` (a `json.Decoder` with
`UseNumber()` set) preserves exact numeric precision: the decode is the
`useNumber` decode, that decode is lossless on every JSON text (every
integer literal, at any nesting depth, is represented exactly), the
spec's example `\x7b"a": 9223372036854775807\x7d` decodes to the exact
`json.Number`, and the `float64` decode that `UseNumber` avoids would
genuinely round that value. -/
theorem c7_usenumber_decode_is_exact :
    (∀ t : JsonText, decodeBody (.wellFormed t) = .ok (goJsonDecode true t)) ∧
    (∀ t : JsonText, jsonTextOfVal (goJsonDecode true t) = t) ∧
    decodeBody (.wellFormed (.obj (.cons "a" (.num 9223372036854775807) .nil))) =
      .ok (.obj (.cons "a" (.number 9223372036854775807) .nil)) ∧
    jsonTextOfVal (goJsonDecode false (.num 9223372036854775807)) ≠
      .num 9223372036854775807 := by
  refine ⟨fun _ => rfl, goJsonDecode_roundtrip, rfl, ?_⟩
  intro h
  have h2 : f64round 9223372036854775807 = 9223372036854775807 := by
    have h3 : jsonTextOfVal (goJsonDecode false (.num 9223372036854775807)) =
        .num (f64round 9223372036854775807) := rfl
    rw [h3] at h
    exact JsonText.num.inj h
  have h4 : f64round 9223372036854775807 = 9223372036854775808 := by decide
  rw [h4] at h2
  exact absurd h2 (by decide)

/-! ## Helper lemmas about the event traces of `Exec` -/

/-- Number of token releases (`sk.Close()` calls) recorded in a trace. -/
def countClose : List Ev → Nat
  | [] => 0
  | Ev.pivClose :: rest => countClose rest + 1
  | _ :: rest => countClose rest

/-- Counting token releases distributes over trace concatenation. -/
theorem countClose_append (l1 l2 : List Ev) :
    countClose (l1 ++ l2) = countClose l1 + countClose l2 := by
  induction l1 with
  | nil => exact (Nat.zero_add _).symm
  | cons hd tl ih =>
    cases hd
    case pivClose =>
      show countClose (tl ++ l2) + 1 = countClose tl + 1 + countClose l2
      omega
    all_goals exact ih

/-- A branch body of the predicate-type switch never touches the token. -/
theorem countClose_runBranch (env : Env) (k : String)
    (u : Bytes → Except String Statement) (dp : Bytes) (pol : List String) :
    countClose (runBranch env k u dp pol).2 = 0 := by
  unfold runBranch
  split
  · rfl
  · dsimp only
    split
    · rfl
    · rfl

/-- The predicate-type dispatch never touches the token. -/
theorem countClose_dispatchDecoded (env : Env) (pt : String) (dp : Bytes)
    (pol : List String) :
    countClose (dispatchDecoded env pt dp pol).2 = 0 := by
  unfold dispatchDecoded
  split
  · exact countClose_runBranch ..
  · split
    · exact countClose_runBranch ..
    · split
      · exact countClose_runBranch ..
      · split
        · exact countClose_runBranch ..
        · rfl

/-- Processing one envelope never touches the token. -/
theorem countClose_processEnvelope (env : Env) (c : VerifyAttestationCommand)
    (vp : VerifiedPayload) :
    countClose (processEnvelope env c vp).2 = 0 := by
  unfold processEnvelope
  split
  · rfl
  · split
    · rfl
    · split
      · rfl
      · split
        · rfl
        · split
          · rfl
          · exact countClose_dispatchDecoded env c.PredicateType _ c.Policies

/-- The envelope loop never touches the token. -/
theorem countClose_processEnvelopes (env : Env) (c : VerifyAttestationCommand) :
    ∀ l : List VerifiedPayload, countClose (processEnvelopes env c l).2 = 0
  | [] => rfl
  | vp :: rest => by
    unfold processEnvelopes
    split
    · next e evs heq =>
      have h := countClose_processEnvelope env c vp
      rw [heq] at h
      exact h
    · next evs heq =>
      have h := countClose_processEnvelope env c vp
      rw [heq] at h
      show countClose (evs ++ (processEnvelopes env c rest).2) = 0
      rw [countClose_append, h, countClose_processEnvelopes env c rest]

/-- Processing one image never touches the token. -/
theorem countClose_processImage (env : Env) (c : VerifyAttestationCommand)
    (img : String) :
    countClose (processImage env c img).2 = 0 := by
  unfold processImage
  split
  · rfl
  · split
    · rfl
    · rename_i verified bundleV heqV
      split
      · next e evs heq =>
        have h := countClose_processEnvelopes env c verified
        rw [heq] at h
        exact h
      · next evs heq =>
        have h := countClose_processEnvelopes env c verified
        rw [heq] at h
        show countClose (evs ++ [Ev.printVerification img]) = 0
        rw [countClose_append, h]
        rfl

/-- The image loop never touches the token. -/
theorem countClose_processImages (env : Env) (c : VerifyAttestationCommand) :
    ∀ l : List String, countClose (processImages env c l).2 = 0
  | [] => rfl
  | img :: rest => by
    unfold processImages
    split
    · next e evs heq =>
      have h := countClose_processImage env c img
      rw [heq] at h
      exact h
    · next evs heq =>
      have h := countClose_processImage env c img
      rw [heq] at h
      show countClose (evs ++ (processImages env c rest).2) = 0
      rw [countClose_append, h, countClose_processImages env c rest]

/-- Maps a `cue.ValidateJSON` outcome to the value the switch branch
makes `Exec` produce: an error is returned unchanged, success falls
through. -/
def cueStep : Except String Unit → Except GoErr Unit
  | .error e => .error (.plain e)
  | .ok _ => .ok ()

/-- When the branch's statement unmarshal succeeds, the branch
re-serializes exactly the statement's `Predicate` field, evaluates the
policy on those bytes, and its outcome is the policy outcome; nothing
besides the predicate reaches the evaluator. -/
theorem runBranch_eq (env : Env) (k : String)
    (u : Bytes → Except String Statement) (dp : Bytes) (pol : List String)
    (st : Statement) (h : u dp = .ok st) :
    runBranch env k u dp pol =
      (cueStep (env.cueValidate (env.jsonMarshal st.Predicate) pol),
       [.statementParse k, .policyEval (env.jsonMarshal st.Predicate) pol]) := by
  unfold runBranch
  rw [h]
  dsimp only
  cases env.cueValidate (env.jsonMarshal st.Predicate) pol
  · rfl
  · rfl

/-! ## Concrete environments used by counterexamples and witnesses -/

/-- A baseline environment: client options succeed, references parse to
themselves, fetches return no attestations, key loading succeeds,
hardware-token acquisition fails, codecs reject their input, policy
evaluation allows. -/
def envBase : Env :=
  { experimental := false
    clientOpts := .ok ()
    publicKeyFromKeyRef := fun _ => .ok ()
    pivGetKey := fun _ => .error "no token present"
    parseRef := fun s => .ok s
    verifyAttestations := fun _ => .ok ([], false)
    jsonUnmarshalMap := fun _ => .error "invalid character"
    base64Decode := fun _ => .error "illegal base64 data"
    unmarshalStatement := fun _ => .error "cannot unmarshal statement"
    unmarshalLinkStatement := fun _ => .error "cannot unmarshal link"
    unmarshalProvenanceStatement := fun _ => .error "cannot unmarshal provenance"
    unmarshalSPDXStatement := fun _ => .error "cannot unmarshal spdx"
    jsonMarshal := fun p => p.toList.map Char.toNat
    cueValidate := fun _ _ => .ok () }

/-- A command configured with an explicit key reference and the custom
predicate type. -/
def cmdKeyed : VerifyAttestationCommand :=
  { CheckClaims := false
    KeyRef := "cosign.pub"
    Sk := false
    Slot := ""
    Output := ""
    FulcioURL := ""
    RekorURL := ""
    PredicateType := "custom"
    Policies := ["policy.cue"] }

/-- The keyed command with no key reference and no hardware token:
keyless mode. -/
def cmdKeyless : VerifyAttestationCommand :=
  { cmdKeyed with KeyRef := "" }

/-- The keyed command switched to the hardware token in slot
`signature`. -/
def cmdToken : VerifyAttestationCommand :=
  { cmdKeyed with KeyRef := "", Sk := true, Slot := "signature" }

/-- An environment whose registry fetch fails for `img1` with a
transport error and succeeds (with zero attestations) for every other
reference. -/
def envFetchFail : Env :=
  { envBase with
    verifyAttestations := fun r =>
      if r == "img1" then .error "transport error" else .ok ([], false) }

/-- An environment in which the hardware token is acquired successfully
but constructing its verifier fails. -/
def envTokenVerifierFail : Env :=
  { envBase with
    pivGetKey := fun _ => .ok { Verifier := .error "verifier construction failed" } }

/-- An envelope whose payload parses to a `payloadType` different from
every identifier in the predicate-type map. -/
def envMismatch : Env :=
  { envBase with
    jsonUnmarshalMap := fun _ =>
      .ok { payloadType := some "https://example.com/other/v1", payload := none } }

/-- A raw verified payload with some bytes. -/
def vpSample : VerifiedPayload := { Payload := .ok [123, 34, 112] }

/-! ## Claim theorems: the `Exec` orchestration -/

/-- C3 counterexample: with a transport error on the first image
reference of `[img1, img2]`, `Exec` aborts the whole run — it returns
the fetch error and the trace shows that the second reference was never
parsed or fetched, refuting "the orchestrator continues processing the
subsequent references". -/
theorem c3_fetch_error_abort_counterexample :
    Exec envFetchFail cmdKeyed ["img1", "img2"] =
      (.error (.plain "transport error"),
       [.clientOpts, .loadPublicKey "cosign.pub", .parseRef "img1",
        .fetchAttestations "img1"]) ∧
    Ev.parseRef "img2" ∉ (Exec envFetchFail cmdKeyed ["img1", "img2"]).2 ∧
    Ev.fetchAttestations "img2" ∉ (Exec envFetchFail cmdKeyed ["img1", "img2"]).2 := by
  refine ⟨rfl, ?_, ?_⟩ <;> decide

/-- C3 (amended): when attestation verification for an image reference
fails with a fetch/transport error, `Exec` aborts the entire run: the
error is returned immediately and none of the subsequent references in
the list is processed (the trace ends at the failing fetch). -/
theorem c3_fetch_error_aborts_run (env : Env) (c : VerifyAttestationCommand)
    (img ref e : String) (rest : List String)
    (h1 : env.parseRef img = .ok ref)
    (h2 : env.verifyAttestations ref = .error e) :
    processImages env c (img :: rest) =
      (.error (.plain e), [.parseRef img, .fetchAttestations ref]) := by
  unfold processImages processImage
  rw [h1]
  dsimp only
  rw [h2]

/-- Witness for the amended C3 theorem at a concrete run. -/
theorem c3_fetch_error_aborts_run_witness :
    processImages envFetchFail cmdKeyed ["img1", "img2"] =
      (.error (.plain "transport error"),
       [.parseRef "img1", .fetchAttestations "img1"]) :=
  c3_fetch_error_aborts_run envFetchFail cmdKeyed "img1" "img1" "transport error"
    ["img2"] rfl rfl

/-- C5 counterexample: invoking `Exec` in keyless mode with the
experimental flag unset but with an empty image list returns
`flag.ErrHelp`, not the configuration error (`options.KeyParseError`),
so the claim's "a configuration error is returned" fails on that
invocation (no network access happens, but the error kind is wrong). -/
theorem c5_keyless_empty_images_counterexample :
    Exec envBase cmdKeyless [] = (.error .errHelp, []) ∧
    GoErr.errHelp ≠ GoErr.keyParseError := by
  refine ⟨rfl, ?_⟩
  decide

/-- C5 (amended): for every invocation of `Exec` with a nonempty image
list where no key reference and no hardware-token flag is supplied and
the experimental flag is unset, the configuration error
`options.KeyParseError` is returned with an empty trace: no fetch,
registry, or key-loading call occurs. -/
theorem c5_keyless_requires_experimental (env : Env)
    (c : VerifyAttestationCommand) (images : List String)
    (h1 : images ≠ []) (h2 : c.KeyRef = "") (h3 : c.Sk = false)
    (h4 : env.experimental = false) :
    Exec env c images = (.error .keyParseError, []) := by
  unfold Exec
  rw [if_neg h1]
  have h5 : OneOf c.KeyRef c.Sk = false := by
    rw [h2, h3]
    rfl
  rw [h5, h4]
  rfl

/-- Witness for the amended C5 theorem at a concrete invocation. -/
theorem c5_keyless_requires_experimental_witness :
    Exec envBase cmdKeyless ["example.com/app:v1"] = (.error .keyParseError, []) :=
  c5_keyless_requires_experimental envBase cmdKeyless ["example.com/app:v1"]
    (by decide) rfl rfl rfl

/-- C6: a verified envelope whose `payloadType` differs from the
identifier of the caller's requested predicate type is skipped without
error: its processing contributes exactly the payload-read and JSON
parse events — no base64 decode, no statement parse, no policy
evaluation — and the envelope loop continues with the remaining
envelopes. -/
theorem c6_payload_type_mismatch_skips (env : Env)
    (c : VerifyAttestationCommand) (vp : VerifiedPayload)
    (rest : List VerifiedPayload) (payload : Bytes) (pd : PayloadData)
    (h1 : vp.Payload = .ok payload)
    (h2 : env.jsonUnmarshalMap payload = .ok pd)
    (h3 : pd.payloadType ≠ some (PredicateTypeMap c.PredicateType)) :
    processEnvelope env c vp = (.ok (), [.envPayload, .jsonUnmarshal]) ∧
    processEnvelopes env c (vp :: rest) =
      ((processEnvelopes env c rest).1,
       [Ev.envPayload, Ev.jsonUnmarshal] ++ (processEnvelopes env c rest).2) := by
  have hpe : processEnvelope env c vp = (.ok (), [.envPayload, .jsonUnmarshal]) := by
    unfold processEnvelope
    rw [h1]
    dsimp only
    rw [h2]
    dsimp only
    rw [if_pos h3]
  refine ⟨hpe, ?_⟩
  simp only [processEnvelopes]
  rw [hpe]

/-- Witness for C6 at a concrete mismatching envelope. -/
theorem c6_payload_type_mismatch_skips_witness :
    processEnvelope envMismatch cmdKeyed vpSample =
      (.ok (), [.envPayload, .jsonUnmarshal]) ∧
    processEnvelopes envMismatch cmdKeyed [vpSample] =
      ((processEnvelopes envMismatch cmdKeyed []).1,
       [Ev.envPayload, Ev.jsonUnmarshal] ++ (processEnvelopes envMismatch cmdKeyed []).2) :=
  c6_payload_type_mismatch_skips envMismatch cmdKeyed vpSample [] [123, 34, 112]
    { payloadType := some "https://example.com/other/v1", payload := none }
    rfl rfl (by decide)

/-- The dispatch, fully characterized: when the decoder that the switch
associates with the requested predicate type succeeds on the decoded
payload, the branch taken is the requested type's branch, the evaluator
runs on the re-serialized `Predicate` field, and the outcome is the
evaluator's outcome.  The right-hand side never mentions the statement's
own `predicateType` tag. -/
theorem dispatchDecoded_eq (env : Env) (pt : String)
    (dec : Bytes → Except String Statement) (dp : Bytes) (pol : List String)
    (st : Statement)
    (h1 : decoderFor env pt = some dec) (h2 : dec dp = .ok st) :
    dispatchDecoded env pt dp pol =
      (cueStep (env.cueValidate (env.jsonMarshal st.Predicate) pol),
       [.statementParse pt, .policyEval (env.jsonMarshal st.Predicate) pol]) := by
  unfold decoderFor at h1
  unfold dispatchDecoded
  split at h1
  · rename_i hcond
    have hpt : pt = PredicateCustom := eq_of_beq hcond
    subst hpt
    have h2c : env.unmarshalStatement dp = .ok st := by
      rw [Option.some.inj h1]
      exact h2
    rw [if_pos (by rfl : (PredicateCustom == PredicateCustom) = true)]
    exact runBranch_eq env PredicateCustom env.unmarshalStatement dp pol st h2c
  · split at h1
    · rename_i hne1 hcond
      have hpt : pt = PredicateLink := eq_of_beq hcond
      subst hpt
      have h2c : env.unmarshalLinkStatement dp = .ok st := by
        rw [Option.some.inj h1]
        exact h2
      rw [if_neg (by decide), if_pos (by rfl : (PredicateLink == PredicateLink) = true)]
      exact runBranch_eq env PredicateLink env.unmarshalLinkStatement dp pol st h2c
    · split at h1
      · rename_i hne1 hne2 hcond
        have hpt : pt = PredicateSLSA := eq_of_beq hcond
        subst hpt
        have h2c : env.unmarshalProvenanceStatement dp = .ok st := by
          rw [Option.some.inj h1]
          exact h2
        rw [if_neg (by decide), if_neg (by decide),
          if_pos (by rfl : (PredicateSLSA == PredicateSLSA) = true)]
        exact runBranch_eq env PredicateSLSA env.unmarshalProvenanceStatement dp pol st h2c
      · split at h1
        · rename_i hne1 hne2 hne3 hcond
          have hpt : pt = PredicateSPDX := eq_of_beq hcond
          subst hpt
          have h2c : env.unmarshalSPDXStatement dp = .ok st := by
            rw [Option.some.inj h1]
            exact h2
          rw [if_neg (by decide), if_neg (by decide), if_neg (by decide),
            if_pos (by rfl : (PredicateSPDX == PredicateSPDX) = true)]
          exact runBranch_eq env PredicateSPDX env.unmarshalSPDXStatement dp pol st h2c
        · cases h1

/-- A statement whose own `predicateType` tag names SLSA provenance,
attached to a run that requests the `custom` predicate type: used to
exhibit that the inner tag is never consulted. -/
def stInnerTagged : Statement :=
  { SType := "https://in-toto.io/Statement/v0.1"
    StmtPredicateType := "https://slsa.dev/provenance/v0.2"
    Subject := ["example.com/app"]
    Predicate := "predicate-content" }

/-- An environment whose custom-statement decoder succeeds with
`stInnerTagged`. -/
def envDecodes : Env :=
  { envBase with unmarshalStatement := fun _ => .ok stInnerTagged }

/-- C8: for every envelope dispatch in which the branch's statement
decode succeeds, any policy-evaluation event carries exactly the JSON
re-serialization of the decoded statement's inner `Predicate` field and
the configured policy list; the marshalling consumes the `Predicate`
field alone, so no subject list or other statement metadata can reach
the evaluator's input. -/
theorem c8_policy_sees_predicate_only (env : Env) (pt : String)
    (dec : Bytes → Except String Statement) (dp : Bytes) (pol : List String)
    (st : Statement)
    (h1 : decoderFor env pt = some dec) (h2 : dec dp = .ok st) :
    ∀ input pols, Ev.policyEval input pols ∈ (dispatchDecoded env pt dp pol).2 →
      input = env.jsonMarshal st.Predicate ∧ pols = pol := by
  intro input pols hmem
  rw [dispatchDecoded_eq env pt dec dp pol st h1 h2] at hmem
  simp only [List.mem_cons, List.not_mem_nil, or_false] at hmem
  rcases hmem with h | h
  · cases h
  · injection h with hi hp
    exact ⟨hi, hp⟩

/-- Witness for C8 at a concrete dispatch whose decoded statement has a
subject list and a differing inner tag. -/
theorem c8_policy_sees_predicate_only_witness :
    envDecodes.jsonMarshal "predicate-content" =
      envDecodes.jsonMarshal stInnerTagged.Predicate ∧
    (["policy.cue"] : List String) = ["policy.cue"] :=
  c8_policy_sees_predicate_only envDecodes PredicateCustom
    envDecodes.unmarshalStatement [1, 2] ["policy.cue"] stInnerTagged rfl rfl
    (envDecodes.jsonMarshal "predicate-content") ["policy.cue"] (by decide)

/-- C10: the statement-decoding branch is selected solely by the
caller's requested predicate type (the decoder is `decoderFor` of the
requested type, the parse event is tagged with the requested type), and
the outcome depends on the decoded statement only through its
`Predicate` field — the statement's own `predicateType` tag is never
consulted, so a statement whose inner tag differs from the requested
type is still decoded and policy-evaluated as the requested type. -/
theorem c10_branch_selected_by_requested_type (env : Env) (pt : String)
    (dec : Bytes → Except String Statement) (dp : Bytes) (pol : List String)
    (st : Statement)
    (h1 : decoderFor env pt = some dec) (h2 : dec dp = .ok st) :
    dispatchDecoded env pt dp pol =
      (cueStep (env.cueValidate (env.jsonMarshal st.Predicate) pol),
       [.statementParse pt, .policyEval (env.jsonMarshal st.Predicate) pol]) :=
  dispatchDecoded_eq env pt dec dp pol st h1 h2

/-- Witness for C10: a statement tagged inside as SLSA provenance is
still dispatched and evaluated as `custom` when `custom` is requested. -/
theorem c10_branch_selected_by_requested_type_witness :
    dispatchDecoded envDecodes PredicateCustom [1, 2] ["policy.cue"] =
      (cueStep (envDecodes.cueValidate
        (envDecodes.jsonMarshal stInnerTagged.Predicate) ["policy.cue"]),
       [.statementParse PredicateCustom,
        .policyEval (envDecodes.jsonMarshal stInnerTagged.Predicate) ["policy.cue"]]) :=
  c10_branch_selected_by_requested_type envDecodes PredicateCustom
    envDecodes.unmarshalStatement [1, 2] ["policy.cue"] stInnerTagged rfl rfl

/-- C9: on every execution path of `Exec` that reaches a successful
hardware-token acquisition — the image list is nonempty, client options
succeed, no key reference is given and the token flag is set, and
`pivkey.GetKeyWithSlot` succeeds — the token's `Close` is recorded
exactly once in the run's trace, whether the verifier construction from
the token fails or the run proceeds through the whole image loop. -/
theorem c9_token_released_exactly_once (env : Env)
    (c : VerifyAttestationCommand) (images : List String) (tok : PivToken)
    (h1 : images ≠ [])
    (h2 : env.clientOpts = .ok ())
    (h3 : c.KeyRef = "") (h4 : c.Sk = true)
    (h5 : env.pivGetKey c.Slot = .ok tok) :
    countClose (Exec env c images).2 = 1 := by
  have hone : OneOf c.KeyRef c.Sk = true := by
    rw [h3, h4]
    rfl
  have hcond : (!OneOf c.KeyRef c.Sk && !env.experimental) = false := by
    rw [hone]
    rfl
  obtain ⟨tv⟩ := tok
  cases tv with
  | error e =>
    unfold Exec
    rw [if_neg h1, hcond, h2, h3, h4, h5]
    rfl
  | ok u =>
    unfold Exec
    rw [if_neg h1, hcond, h2, h3, h4, h5]
    show countClose
      (([Ev.clientOpts, Ev.pivAcquire c.Slot, Ev.pivVerifier] ++
        (processImages env c images).2) ++ [Ev.pivClose]) = 1
    rw [countClose_append, countClose_append, countClose_processImages]
    rfl

/-- Witness for C9 on the partial-construction-failure path: the token
is acquired, verifier construction fails, and the trace still records
exactly one release. -/
theorem c9_token_released_exactly_once_witness :
    countClose (Exec envTokenVerifierFail cmdToken ["img1"]).2 = 1 :=
  c9_token_released_exactly_once envTokenVerifierFail cmdToken ["img1"]
    { Verifier := .error "verifier construction failed" }
    (by decide) rfl rfl rfl rfl
